import Mathlib

/-!
Verification of the Ticketing & Redemption Engine of the WebTicketing
repository (backend routes `/api/tickets/claim`, `/api/qr/validate`,
`/api/qr/scan`, `/api/tickets/:id/use`, the capacity read accessors, and the
`Ticket`/`Event` Mongoose models), shallowly embedded in Lean.

JavaScript strings (Mongo object ids, UUID ticket ids, the serialized QR
payload, ISO timestamps) are modelled as `List Char`.  Dates that the code
compares with `<` (`event.date`, `new Date()`) are modelled as `Nat` epoch
instants.  Each Express handler becomes a pure function from a database
state to a result together with the successor state.
-/

deriving instance DecidableEq for Except

namespace WebTicketing

/-- A JavaScript string, modelled as its list of characters. -/
abbrev Str := List Char

/-- `TicketSchema.status`: `enum: ['active', 'used', 'cancelled', 'expired']`,
`default: 'active'` (models/Ticket.ts). -/
inductive TicketStatus
  | active
  | used
  | cancelled
  | expired
  deriving DecidableEq, Repr

/-- `EventSchema.status`: `enum: ['draft', 'published', 'cancelled', 'completed']`
(models/Event.ts). -/
inductive EventStatus
  | draft
  | published
  | cancelled
  | completed
  deriving DecidableEq, Repr

/-- `EventSchema.ticketType`: `enum: ['free', 'paid']` (models/Event.ts). -/
inductive TicketType
  | free
  | paid
  deriving DecidableEq, Repr

/-- A stored `Ticket` document (models/Ticket.ts).  `mongoId` is the
storage-assigned `_id`; `ticketId` is the UUID credential id generated at
claim time; `qrCode` is the exact serialized QR payload string. -/
structure Ticket where
  mongoId : Str
  ticketId : Str
  event : Str
  user : Str
  qrCode : Str
  status : TicketStatus
  usedAt : Option Nat
  usedBy : Option Str
  price : Nat
  deriving DecidableEq, Repr

/-- A stored `Event` document (models/Event.ts), restricted to the fields the
ticketing engine reads. -/
structure Event where
  eid : Str
  capacity : Nat
  status : EventStatus
  isApproved : Bool
  date : Nat
  organization : Str
  ticketType : TicketType
  ticketPrice : Nat
  deriving DecidableEq, Repr

/-- The document store: the `events` and `tickets` collections. -/
structure DB where
  events : List Event
  tickets : List Ticket
  deriving DecidableEq, Repr

/-- The acting authenticated principal (`req.user`): its `_id` and its
`organization` reference, as attached by the auth middleware. -/
structure Principal where
  pid : Str
  organization : Str
  deriving DecidableEq, Repr

/-- `Event.findById(eventId)`. -/
def findEvent (db : DB) (eventId : Str) : Option Event :=
  db.events.find? (fun e => e.eid == eventId)

/-- `Ticket.findOne({ qrCode: qrData })`: equality lookup on the stored
serialized payload. -/
def findTicketByQr (db : DB) (qrData : Str) : Option Ticket :=
  db.tickets.find? (fun t => t.qrCode == qrData)

/-- `Ticket.findById(id)`. -/
def findTicketById (db : DB) (id : Str) : Option Ticket :=
  db.tickets.find? (fun t => t.mongoId == id)

/-- Membership in the `{$in: ['active', 'used']}` status set used by the
duplicate-claim guard: the statuses that occupy a capacity slot. -/
def isOccupying (s : TicketStatus) : Bool :=
  s == TicketStatus.active || s == TicketStatus.used

/-- `Ticket.countDocuments({ event: eventId, status: 'active' })` — the count
the code actually uses for the capacity check and for `remainingCapacity`. -/
def activeCount (db : DB) (eventId : Str) : Nat :=
  (db.tickets.filter
    (fun t => t.event == eventId && t.status == TicketStatus.active)).length

/-- Count of tickets of an event in `{active, used}` status — the
"occupied-capacity" count in the specification's sense. -/
def occupiedCount (db : DB) (eventId : Str) : Nat :=
  (db.tickets.filter (fun t => t.event == eventId && isOccupying t.status)).length

/-- `Ticket.findOne({ event, user, status: {$in: ['active','used']} })`
returns a document, i.e. the duplicate-claim guard fires. -/
def hasOccupyingTicket (db : DB) (eventId userId : Str) : Bool :=
  db.tickets.any
    (fun t => t.event == eventId && t.user == userId && isOccupying t.status)

/-- Update the first element satisfying `p` by `f`, leaving the rest alone:
the effect of `ticket.save()` on the single document returned by a
`findOne`/`findById` lookup. -/
def updateFirst (p : α → Bool) (f : α → α) : List α → List α
  | [] => []
  | x :: xs => if p x then f x :: xs else x :: updateFirst p f xs

theorem updateFirst_of_find?_eq_none {p : α → Bool} {f : α → α} {l : List α}
    (h : l.find? p = none) : updateFirst p f l = l := by
  induction l with
  | nil => rfl
  | cons x xs ih =>
    rw [List.find?_cons] at h
    by_cases hx : p x
    · simp [hx] at h
    · simp only [updateFirst, hx, if_neg, Bool.false_eq_true, if_false]
      simp only [hx, Bool.false_eq_true, if_false] at h
      rw [ih h]

theorem find?_eq_some_decomp {p : α → Bool} {l : List α} {x : α}
    (h : l.find? p = some x) :
    ∃ l₁ l₂, l = l₁ ++ x :: l₂ ∧ (∀ y ∈ l₁, p y = false) ∧ p x = true := by
  induction l with
  | nil => simp [List.find?] at h
  | cons a l ih =>
    rw [List.find?_cons] at h
    by_cases ha : p a
    · simp only [ha, if_true, Option.some.injEq] at h
      subst h
      exact ⟨[], l, rfl, by simp, ha⟩
    · simp only [ha, Bool.false_eq_true, if_false] at h
      obtain ⟨l₁, l₂, rfl, h₁, h₂⟩ := ih h
      exact ⟨a :: l₁, l₂, rfl, by
        intro y hy
        rcases List.mem_cons.mp hy with rfl | hy
        · exact Bool.eq_false_iff.mpr ha
        · exact h₁ y hy, h₂⟩

theorem updateFirst_append_of_none {p : α → Bool} {f : α → α} {l₁ l₂ : List α}
    {x : α} (h₁ : ∀ y ∈ l₁, p y = false) (hx : p x = true) :
    updateFirst p f (l₁ ++ x :: l₂) = l₁ ++ f x :: l₂ := by
  induction l₁ with
  | nil => simp [updateFirst, hx]
  | cons a l₁ ih =>
    have ha : p a = false := h₁ a (List.mem_cons_self a l₁)
    simp only [List.cons_append, updateFirst, ha, Bool.false_eq_true, if_false]
    exact congrArg (a :: ·) (ih (fun y hy => h₁ y (List.mem_cons_of_mem a hy)))

/-! ## QR payload codec

`POST /api/tickets/claim` builds
`qrData = JSON.stringify({ ticketId, eventId, userId, timestamp })` where
`timestamp = new Date().toISOString()`, stores that exact string in
`Ticket.qrCode`, and the scan/validate routes parse the presented string and
look the ticket up by string equality on `qrCode`. -/

/-- The four fields serialized into the QR payload at claim time. -/
structure QrPayload where
  ticketId : Str
  eventId : Str
  userId : Str
  timestamp : Str
  deriving DecidableEq, Repr

def keyTicketId : Str := ['t', 'i', 'c', 'k', 'e', 't', 'I', 'd']

def keyEventId : Str := ['e', 'v', 'e', 'n', 't', 'I', 'd']

def keyUserId : Str := ['u', 's', 'e', 'r', 'I', 'd']

def keyTimestamp : Str := ['t', 'i', 'm', 'e', 's', 't', 'a', 'm', 'p']

/-- Interleave a separator character between consecutive chunks. -/
def joinSep (c : Char) : List Str → Str
  | [] => []
  | [s] => s
  | s :: rest => s ++ c :: joinSep c rest

/-- The 17 chunks of the serialized JSON object, in order, between the
double-quote characters of
`{"ticketId":"…","eventId":"…","userId":"…","timestamp":"…"}`. -/
def qrSegments (p : QrPayload) : List Str :=
  [['\x7b'], keyTicketId, [':'], p.ticketId,
   [','], keyEventId, [':'], p.eventId,
   [','], keyUserId, [':'], p.userId,
   [','], keyTimestamp, [':'], p.timestamp, ['\x7d']]

/-- `JSON.stringify({ ticketId, eventId, userId, timestamp })`: the exact
character sequence of the serialized payload (the field values — a UUID, two
Mongo hex ids, an ISO timestamp — contain no character JSON would escape). -/
def qrEncode (p : QrPayload) : Str :=
  joinSep '"' (qrSegments p)

/-- Split a character list at every occurrence of `c`. -/
def splitOnChar (c : Char) : List Char → List (List Char)
  | [] => [[]]
  | x :: xs =>
    if x = c then [] :: splitOnChar c xs
    else
      match splitOnChar c xs with
      | [] => [[x]]
      | y :: ys => (x :: y) :: ys

/-- Parse a presented QR string back into its four fields; `none` models a
parse failure (`Invalid QR code format`). -/
def qrDecode (s : Str) : Option QrPayload :=
  match splitOnChar '"' s with
  | [o, k1, c1, tid, s1, k2, c2, eid, s2, k3, c3, uid, s3, k4, c4, ts, cl] =>
    if o == ['\x7b'] && k1 == keyTicketId && c1 == [':'] && s1 == [','] &&
       k2 == keyEventId && c2 == [':'] && s2 == [','] &&
       k3 == keyUserId && c3 == [':'] && s3 == [','] &&
       k4 == keyTimestamp && c4 == [':'] && cl == ['\x7d'] then
      some ⟨tid, eid, uid, ts⟩
    else none
  | _ => none

theorem splitOnChar_of_not_mem {c : Char} {l : List Char} (h : c ∉ l) :
    splitOnChar c l = [l] := by
  induction l with
  | nil => rfl
  | cons x xs ih =>
    have hx : ¬ x = c := fun hxc => h (hxc ▸ List.mem_cons_self x xs)
    have hxs : c ∉ xs := fun hc => h (List.mem_cons_of_mem x hc)
    simp only [splitOnChar, hx, if_false, ih hxs]

theorem splitOnChar_append_cons {c : Char} {a : List Char} (h : c ∉ a)
    (l : List Char) : splitOnChar c (a ++ c :: l) = a :: splitOnChar c l := by
  induction a with
  | nil => simp [splitOnChar]
  | cons x a ih =>
    have hx : ¬ x = c := fun hxc => h (hxc ▸ List.mem_cons_self x a)
    have ha : c ∉ a := fun hc => h (List.mem_cons_of_mem x hc)
    simp only [List.cons_append, splitOnChar, hx, if_false]
    rw [show splitOnChar c (a.append (c :: l)) = a :: splitOnChar c l from ih ha]

theorem splitOnChar_joinSep {c : Char} {ss : List (List Char)} (hne : ss ≠ [])
    (h : ∀ s ∈ ss, c ∉ s) : splitOnChar c (joinSep c ss) = ss := by
  induction ss with
  | nil => exact absurd rfl hne
  | cons s rest ih =>
    cases rest with
    | nil =>
      exact splitOnChar_of_not_mem (h s (List.mem_cons_self s []))
    | cons s' rest' =>
      have hs : c ∉ s := h s (List.mem_cons_self s (s' :: rest'))
      show splitOnChar c (s ++ c :: joinSep c (s' :: rest')) = _
      rw [splitOnChar_append_cons hs,
        ih (by simp) (fun t ht => h t (List.mem_cons_of_mem s ht))]

/-- Round trip of the codec: decoding the serialization of a payload whose
fields contain no double-quote character recovers exactly the four fields. -/
theorem qrDecode_qrEncode (p : QrPayload)
    (h1 : '"' ∉ p.ticketId) (h2 : '"' ∉ p.eventId)
    (h3 : '"' ∉ p.userId) (h4 : '"' ∉ p.timestamp) :
    qrDecode (qrEncode p) = some p := by
  have hsplit : splitOnChar '"' (qrEncode p) = qrSegments p := by
    apply splitOnChar_joinSep
    · simp [qrSegments]
    · intro s hs
      simp only [qrSegments, List.mem_cons, List.not_mem_nil, or_false] at hs
      rcases hs with rfl | rfl | rfl | rfl | rfl | rfl | rfl | rfl | rfl | rfl |
        rfl | rfl | rfl | rfl | rfl | rfl | rfl
      all_goals first
        | exact h1 | exact h2 | exact h3 | exact h4
        | decide
  rw [qrDecode, hsplit]
  simp [qrSegments]

/-! ## Operations

Each Express handler becomes a pure function `DB → … → result × DB`; a
returned `DB` equal to the input models "no mutation". -/

/-- Business-rule failures of `POST /api/tickets/claim`, in the order the
handler checks them. -/
inductive ClaimError
  | eventNotFound      -- 404 'Event not found'
  | eventNotClaimable  -- 400 'Event is not available for ticket claiming'
  | eventPassed        -- 400 'Event has already passed'
  | alreadyClaimed     -- 400 'You already have a ticket for this event'
  | soldOut            -- 400 'Event is sold out'
  deriving DecidableEq, Repr

/-- Failures of `POST /api/qr/validate`, `POST /api/qr/scan` and
`POST /api/tickets/:id/use`. -/
inductive RedeemError
  | malformed    -- 400 'Invalid QR code format'
  | notFound     -- 404 'Ticket not found'
  | wrongScope   -- 403 ticket does not belong to the caller's organization
  | notActive    -- 400 'Ticket is not valid' / 'Ticket is not active'
  | eventPassed  -- 400 'Event has already passed'
  | serverError  -- 500: the ticket's event reference resolves to nothing
  deriving DecidableEq, Repr

/-- Request-scoped inputs of `POST /api/tickets/claim`: the body's `eventId`,
the authenticated student (`req.user._id`), the instant `new Date()` both as a
comparable epoch value and as its ISO rendering used in the payload, the
`uuidv4()` ticket id and the storage-assigned document id. -/
structure ClaimInput where
  eventId : Str
  userId : Str
  nowDate : Nat
  nowIso : Str
  freshTicketId : Str
  freshMongoId : Str
  deriving DecidableEq, Repr

/-- `POST /api/tickets/claim` (routes/notifications.ts, tickets router).
Checks, in handler order: event exists; `status === 'published' && isApproved`;
`event.date < new Date()` rejects; duplicate guard over `{active, used}`;
`countDocuments({event, status: 'active'}) >= capacity` rejects; otherwise
inserts a fresh active ticket whose `qrCode` is the serialized payload and
whose price is snapshotted from the event. -/
def claimTicket (db : DB) (inp : ClaimInput) : Except ClaimError Ticket × DB :=
  match findEvent db inp.eventId with
  | none => (.error .eventNotFound, db)
  | some event =>
    if event.status != EventStatus.published || !event.isApproved then
      (.error .eventNotClaimable, db)
    else if event.date < inp.nowDate then
      (.error .eventPassed, db)
    else if hasOccupyingTicket db inp.eventId inp.userId then
      (.error .alreadyClaimed, db)
    else if event.capacity ≤ activeCount db inp.eventId then
      (.error .soldOut, db)
    else
      let qrData := qrEncode
        ⟨inp.freshTicketId, inp.eventId, inp.userId, inp.nowIso⟩
      let ticket : Ticket :=
        { mongoId := inp.freshMongoId
          ticketId := inp.freshTicketId
          event := inp.eventId
          user := inp.userId
          qrCode := qrData
          status := TicketStatus.active
          usedAt := none
          usedBy := none
          price :=
            if event.ticketType == TicketType.paid then event.ticketPrice
            else 0 }
      (.ok ticket, { db with tickets := ticket :: db.tickets })

/-- The mutation `POST /api/qr/scan` performs on the found document:
`status = 'used'; usedAt = new Date(); usedBy = req.user._id; save()`. -/
def markUsed (caller : Principal) (nowDate : Nat) (t : Ticket) : Ticket :=
  { t with
    status := TicketStatus.used
    usedAt := some nowDate
    usedBy := some caller.pid }

/-- `POST /api/qr/scan` (routes/qr.ts).  Parses the presented string, looks
the ticket up by equality on the stored `qrCode`, resolves the ticket's event
(a dangling reference would make `populate` yield `null` and the handler
throw, caught as a 500), then checks organization scope, `status === 'active'`
and the event date, and finally saves the `used` transition on the found
document. -/
def scanTicket (db : DB) (qrData : Str) (caller : Principal) (nowDate : Nat) :
    Except RedeemError Ticket × DB :=
  match qrDecode qrData with
  | none => (.error .malformed, db)
  | some _ =>
    match findTicketByQr db qrData with
    | none => (.error .notFound, db)
    | some ticket =>
      match findEvent db ticket.event with
      | none => (.error .serverError, db)
      | some event =>
        if event.organization != caller.organization then
          (.error .wrongScope, db)
        else if ticket.status != TicketStatus.active then
          (.error .notActive, db)
        else if event.date < nowDate then
          (.error .eventPassed, db)
        else
          (.ok (markUsed caller nowDate ticket),
           { db with
              tickets := updateFirst (fun t => t.qrCode == qrData)
                (markUsed caller nowDate) db.tickets })

/-- `POST /api/qr/validate` (routes/qr.ts): the same parse, lookup,
organization, status and date checks as `/api/qr/scan`, but it only reports
the outcome and performs no write. -/
def validateQr (db : DB) (qrData : Str) (caller : Principal) (nowDate : Nat) :
    Except RedeemError Ticket × DB :=
  match qrDecode qrData with
  | none => (.error .malformed, db)
  | some _ =>
    match findTicketByQr db qrData with
    | none => (.error .notFound, db)
    | some ticket =>
      match findEvent db ticket.event with
      | none => (.error .serverError, db)
      | some event =>
        if event.organization != caller.organization then
          (.error .wrongScope, db)
        else if ticket.status != TicketStatus.active then
          (.error .notActive, db)
        else if event.date < nowDate then
          (.error .eventPassed, db)
        else
          (.ok ticket, db)

/-- `POST /api/tickets/:id/use` (routes/notifications.ts, tickets router):
`findById`, organization scope check, `status === 'active'` check (no event
date check in this route), then the same `used` transition. -/
def useTicket (db : DB) (id : Str) (caller : Principal) (nowDate : Nat) :
    Except RedeemError Ticket × DB :=
  match findTicketById db id with
  | none => (.error .notFound, db)
  | some ticket =>
    match findEvent db ticket.event with
    | none => (.error .serverError, db)
    | some event =>
      if event.organization != caller.organization then
        (.error .wrongScope, db)
      else if ticket.status != TicketStatus.active then
        (.error .notActive, db)
      else
        (.ok (markUsed caller nowDate ticket),
         { db with
            tickets := updateFirst (fun t => t.mongoId == id)
              (markUsed caller nowDate) db.tickets })

/-- The capacity fields reported by `GET /api/events/:id` (and identically by
`GET /api/users/organizer/events`): `ticketsIssued` is
`countDocuments({event, status: 'active'})` and `remainingCapacity` is the
JavaScript subtraction `event.capacity - ticketCount`. -/
structure CapacityView where
  ticketsIssued : Nat
  remainingCapacity : Int
  capacity : Nat
  deriving DecidableEq, Repr

/-- The capacity-status read accessor. -/
def capacityStatus (db : DB) (eventId : Str) : Option CapacityView :=
  (findEvent db eventId).map (fun e =>
    { ticketsIssued := activeCount db eventId
      remainingCapacity := (e.capacity : Int) - (activeCount db eventId : Int)
      capacity := e.capacity })

/-- Modelled from the spec: `cancel(ticketId, actingPrincipal)` (§4.2) — the
administrative cancellation is not implemented by any route under the source;
per the spec it sets `status = Cancelled` on the addressed ticket, and since
the spec's lifecycle admits only the `Active → Cancelled` transition (used,
cancelled and expired are terminal), the transition applies only while the
addressed ticket is active.  The external authorization policy is out of the
engine's scope and omitted. -/
def cancelTicket (db : DB) (tid : Str) : DB :=
  { db with
    tickets := updateFirst (fun t => t.ticketId == tid)
      (fun t =>
        if t.status == TicketStatus.active then
          { t with status := TicketStatus.cancelled }
        else t) db.tickets }

/-! ## Basic lookup facts -/

theorem updateFirst_decomp_of_find? {α : Type _} {p : α → Bool} {f : α → α}
    {l : List α} {x : α} (h : l.find? p = some x) :
    ∃ l₁ l₂, l = l₁ ++ x :: l₂ ∧ (∀ y ∈ l₁, p y = false) ∧ p x = true ∧
      updateFirst p f l = l₁ ++ f x :: l₂ := by
  obtain ⟨l₁, l₂, hl, h₁, hx⟩ := find?_eq_some_decomp h
  exact ⟨l₁, l₂, hl, h₁, hx, hl ▸ updateFirst_append_of_none h₁ hx⟩

theorem find?_append_cons {α : Type _} {p : α → Bool} {l₁ : List α}
    (h₁ : ∀ y ∈ l₁, p y = false) {x : α} (hx : p x = true) (l₂ : List α) :
    (l₁ ++ x :: l₂).find? p = some x := by
  induction l₁ with
  | nil => simp [List.find?_cons, hx]
  | cons a l₁ ih =>
    have ha : p a = false := h₁ a (List.mem_cons_self a l₁)
    simp only [List.cons_append, List.find?_cons, ha, Bool.false_eq_true,
      if_false]
    exact ih (fun y hy => h₁ y (List.mem_cons_of_mem a hy))

theorem findEvent_spec {db : DB} {eventId : Str} {ev : Event}
    (h : findEvent db eventId = some ev) : ev ∈ db.events ∧ ev.eid = eventId := by
  refine ⟨List.mem_of_find?_eq_some h, ?_⟩
  have := List.find?_some h
  simpa [beq_iff_eq] using this

theorem findTicketByQr_spec {db : DB} {s : Str} {t : Ticket}
    (h : findTicketByQr db s = some t) : t ∈ db.tickets ∧ t.qrCode = s := by
  refine ⟨List.mem_of_find?_eq_some h, ?_⟩
  have := List.find?_some h
  simpa [beq_iff_eq] using this

theorem findTicketById_spec {db : DB} {s : Str} {t : Ticket}
    (h : findTicketById db s = some t) : t ∈ db.tickets ∧ t.mongoId = s := by
  refine ⟨List.mem_of_find?_eq_some h, ?_⟩
  have := List.find?_some h
  simpa [beq_iff_eq] using this

/-! ## Characterization of `claimTicket` -/

/-- The ticket document inserted by a successful claim. -/
def newTicket (inp : ClaimInput) (event : Event) : Ticket :=
  { mongoId := inp.freshMongoId
    ticketId := inp.freshTicketId
    event := inp.eventId
    user := inp.userId
    qrCode := qrEncode ⟨inp.freshTicketId, inp.eventId, inp.userId, inp.nowIso⟩
    status := TicketStatus.active
    usedAt := none
    usedBy := none
    price :=
      if event.ticketType == TicketType.paid then event.ticketPrice else 0 }

theorem claimTicket_eq_newTicket (db : DB) (inp : ClaimInput) {event : Event}
    (hfe : findEvent db inp.eventId = some event)
    (hs : event.status = EventStatus.published) (ha : event.isApproved = true)
    (hd : ¬ event.date < inp.nowDate)
    (hdup : hasOccupyingTicket db inp.eventId inp.userId = false)
    (hcap : activeCount db inp.eventId < event.capacity) :
    claimTicket db inp =
      (.ok (newTicket inp event),
       { db with tickets := newTicket inp event :: db.tickets }) := by
  have hc1 : ¬ ((event.status != EventStatus.published || !event.isApproved)
      = true) := by simp [hs, ha]
  have hdup' : ¬ (hasOccupyingTicket db inp.eventId inp.userId = true) := by
    simp [hdup]
  simp only [claimTicket, hfe]
  rw [if_neg hc1, if_neg hd, if_neg hdup', if_neg (Nat.not_le.mpr hcap)]
  rfl

theorem claimTicket_soldOut (db : DB) (inp : ClaimInput) {event : Event}
    (hfe : findEvent db inp.eventId = some event)
    (hs : event.status = EventStatus.published) (ha : event.isApproved = true)
    (hd : ¬ event.date < inp.nowDate)
    (hdup : hasOccupyingTicket db inp.eventId inp.userId = false)
    (hcap : event.capacity ≤ activeCount db inp.eventId) :
    claimTicket db inp = (.error .soldOut, db) := by
  have hc1 : ¬ ((event.status != EventStatus.published || !event.isApproved)
      = true) := by simp [hs, ha]
  have hdup' : ¬ (hasOccupyingTicket db inp.eventId inp.userId = true) := by
    simp [hdup]
  simp only [claimTicket, hfe]
  rw [if_neg hc1, if_neg hd, if_neg hdup', if_pos hcap]

theorem claimTicket_alreadyClaimed (db : DB) (inp : ClaimInput) {event : Event}
    (hfe : findEvent db inp.eventId = some event)
    (hs : event.status = EventStatus.published) (ha : event.isApproved = true)
    (hd : ¬ event.date < inp.nowDate)
    (hdup : hasOccupyingTicket db inp.eventId inp.userId = true) :
    claimTicket db inp = (.error .alreadyClaimed, db) := by
  have hc1 : ¬ ((event.status != EventStatus.published || !event.isApproved)
      = true) := by simp [hs, ha]
  simp only [claimTicket, hfe]
  rw [if_neg hc1, if_neg hd, if_pos hdup]

/-- Every run of the claim handler either inserts the fresh active ticket
after all five checks pass, or fails and returns the store untouched. -/
theorem claimTicket_cases (db : DB) (inp : ClaimInput) :
    (∃ event, findEvent db inp.eventId = some event ∧
      event.status = EventStatus.published ∧ event.isApproved = true ∧
      ¬ event.date < inp.nowDate ∧
      hasOccupyingTicket db inp.eventId inp.userId = false ∧
      activeCount db inp.eventId < event.capacity ∧
      claimTicket db inp =
        (.ok (newTicket inp event),
         { db with tickets := newTicket inp event :: db.tickets })) ∨
    (∃ e, claimTicket db inp = (.error e, db)) := by
  cases hfe : findEvent db inp.eventId with
  | none => exact Or.inr ⟨.eventNotFound, by simp only [claimTicket, hfe]⟩
  | some event =>
    by_cases hc1 : (event.status != EventStatus.published || !event.isApproved)
        = true
    · exact Or.inr ⟨.eventNotClaimable,
        by simp only [claimTicket, hfe]; rw [if_pos hc1]⟩
    · have hs : event.status = EventStatus.published := by
        by_contra hne
        exact hc1 (by simp [bne_iff_ne, hne])
      have ha : event.isApproved = true := by
        by_contra hna
        rw [Bool.not_eq_true] at hna
        exact hc1 (by simp [hna])
      by_cases hd : event.date < inp.nowDate
      · exact Or.inr ⟨.eventPassed,
          by simp only [claimTicket, hfe]; rw [if_neg hc1, if_pos hd]⟩
      · cases hdup : hasOccupyingTicket db inp.eventId inp.userId with
        | true => exact Or.inr ⟨.alreadyClaimed,
            claimTicket_alreadyClaimed db inp hfe hs ha hd hdup⟩
        | false =>
          by_cases hcap : event.capacity ≤ activeCount db inp.eventId
          · exact Or.inr ⟨.soldOut,
              claimTicket_soldOut db inp hfe hs ha hd hdup hcap⟩
          · exact Or.inl ⟨event, rfl, hs, ha, hd, rfl, Nat.not_le.mp hcap,
              claimTicket_eq_newTicket db inp hfe hs ha hd hdup
                (Nat.not_le.mp hcap)⟩

/-! ## Characterization of `scanTicket`, `validateQr`, `useTicket` -/

theorem scanTicket_ok (db : DB) (qrData : Str) (caller : Principal)
    (nowDate : Nat) {p : QrPayload} {ticket : Ticket} {event : Event}
    (hp : qrDecode qrData = some p)
    (hft : findTicketByQr db qrData = some ticket)
    (hfe : findEvent db ticket.event = some event)
    (horg : event.organization = caller.organization)
    (hst : ticket.status = TicketStatus.active)
    (hd : ¬ event.date < nowDate) :
    scanTicket db qrData caller nowDate =
      (.ok (markUsed caller nowDate ticket),
       { db with
          tickets := updateFirst (fun t => t.qrCode == qrData)
            (markUsed caller nowDate) db.tickets }) := by
  have h1 : ¬ ((event.organization != caller.organization) = true) := by
    simp [horg]
  have h2 : ¬ ((ticket.status != TicketStatus.active) = true) := by
    simp [hst]
  simp only [scanTicket, hp, hft, hfe]
  rw [if_neg h1, if_neg h2, if_neg hd]

theorem scanTicket_wrongScope (db : DB) (qrData : Str) (caller : Principal)
    (nowDate : Nat) {p : QrPayload} {ticket : Ticket} {event : Event}
    (hp : qrDecode qrData = some p)
    (hft : findTicketByQr db qrData = some ticket)
    (hfe : findEvent db ticket.event = some event)
    (horg : event.organization ≠ caller.organization) :
    scanTicket db qrData caller nowDate = (.error .wrongScope, db) := by
  have h1 : (event.organization != caller.organization) = true := by
    simp [bne_iff_ne, horg]
  simp only [scanTicket, hp, hft, hfe]
  rw [if_pos h1]

theorem scanTicket_notActive (db : DB) (qrData : Str) (caller : Principal)
    (nowDate : Nat) {p : QrPayload} {ticket : Ticket} {event : Event}
    (hp : qrDecode qrData = some p)
    (hft : findTicketByQr db qrData = some ticket)
    (hfe : findEvent db ticket.event = some event)
    (horg : event.organization = caller.organization)
    (hst : ticket.status ≠ TicketStatus.active) :
    scanTicket db qrData caller nowDate = (.error .notActive, db) := by
  have h1 : ¬ ((event.organization != caller.organization) = true) := by
    simp [horg]
  have h2 : (ticket.status != TicketStatus.active) = true := by
    simp [bne_iff_ne, hst]
  simp only [scanTicket, hp, hft, hfe]
  rw [if_neg h1, if_pos h2]

/-- Every run of the scan handler either performs the `used` transition on the
first stored ticket whose `qrCode` equals the presented string — with all
checks passed — or fails and returns the store untouched. -/
theorem scanTicket_cases (db : DB) (qrData : Str) (caller : Principal)
    (nowDate : Nat) :
    (∃ p ticket event, qrDecode qrData = some p ∧
      findTicketByQr db qrData = some ticket ∧
      findEvent db ticket.event = some event ∧
      event.organization = caller.organization ∧
      ticket.status = TicketStatus.active ∧ ¬ event.date < nowDate ∧
      scanTicket db qrData caller nowDate =
        (.ok (markUsed caller nowDate ticket),
         { db with
            tickets := updateFirst (fun t => t.qrCode == qrData)
              (markUsed caller nowDate) db.tickets })) ∨
    (∃ e, scanTicket db qrData caller nowDate = (.error e, db)) := by
  cases hp : qrDecode qrData with
  | none => exact Or.inr ⟨.malformed, by simp only [scanTicket, hp]⟩
  | some p =>
    cases hft : findTicketByQr db qrData with
    | none => exact Or.inr ⟨.notFound, by simp only [scanTicket, hp, hft]⟩
    | some ticket =>
      cases hfe : findEvent db ticket.event with
      | none => exact Or.inr ⟨.serverError,
          by simp only [scanTicket, hp, hft, hfe]⟩
      | some event =>
        by_cases horg : event.organization = caller.organization
        · by_cases hst : ticket.status = TicketStatus.active
          · by_cases hd : event.date < nowDate
            · refine Or.inr ⟨.eventPassed, ?_⟩
              have h1 : ¬ ((event.organization != caller.organization)
                  = true) := by simp [horg]
              have h2 : ¬ ((ticket.status != TicketStatus.active) = true) := by
                simp [hst]
              simp only [scanTicket, hp, hft, hfe]
              rw [if_neg h1, if_neg h2, if_pos hd]
            · exact Or.inl ⟨p, ticket, event, rfl, rfl, hfe, horg, hst, hd,
                scanTicket_ok db qrData caller nowDate hp hft hfe horg hst hd⟩
          · exact Or.inr ⟨.notActive,
              scanTicket_notActive db qrData caller nowDate hp hft hfe horg
                hst⟩
        · exact Or.inr ⟨.wrongScope,
            scanTicket_wrongScope db qrData caller nowDate hp hft hfe horg⟩

/-- `POST /api/qr/validate` runs exactly the checks of `POST /api/qr/scan`:
its result is the scan result with the `used` transition stripped from the
success value, and it never touches the store. -/
theorem validateQr_eq_scanTicket (db : DB) (qrData : Str) (caller : Principal)
    (nowDate : Nat) :
    (validateQr db qrData caller nowDate).2 = db ∧
    (scanTicket db qrData caller nowDate).1 =
      (validateQr db qrData caller nowDate).1.map (markUsed caller nowDate) := by
  cases hp : qrDecode qrData with
  | none =>
    simp only [validateQr, scanTicket, hp]
    exact ⟨by trivial, by rfl⟩
  | some p =>
    cases hft : findTicketByQr db qrData with
    | none =>
      simp only [validateQr, scanTicket, hp, hft]
      exact ⟨by trivial, by rfl⟩
    | some ticket =>
      cases hfe : findEvent db ticket.event with
      | none =>
        simp only [validateQr, scanTicket, hp, hft, hfe]
        exact ⟨by trivial, by rfl⟩
      | some event =>
        simp only [validateQr, scanTicket, hp, hft, hfe]
        by_cases h1 : (event.organization != caller.organization) = true
        · rw [if_pos h1, if_pos h1]
          exact ⟨by trivial, by rfl⟩
        · rw [if_neg h1, if_neg h1]
          by_cases h2 : (ticket.status != TicketStatus.active) = true
          · rw [if_pos h2, if_pos h2]
            exact ⟨by trivial, by rfl⟩
          · rw [if_neg h2, if_neg h2]
            by_cases hd : event.date < nowDate
            · rw [if_pos hd, if_pos hd]
              exact ⟨by trivial, by rfl⟩
            · rw [if_neg hd, if_neg hd]
              exact ⟨by trivial, by rfl⟩

theorem useTicket_ok (db : DB) (id : Str) (caller : Principal) (nowDate : Nat)
    {ticket : Ticket} {event : Event}
    (hft : findTicketById db id = some ticket)
    (hfe : findEvent db ticket.event = some event)
    (horg : event.organization = caller.organization)
    (hst : ticket.status = TicketStatus.active) :
    useTicket db id caller nowDate =
      (.ok (markUsed caller nowDate ticket),
       { db with
          tickets := updateFirst (fun t => t.mongoId == id)
            (markUsed caller nowDate) db.tickets }) := by
  have h1 : ¬ ((event.organization != caller.organization) = true) := by
    simp [horg]
  have h2 : ¬ ((ticket.status != TicketStatus.active) = true) := by
    simp [hst]
  simp only [useTicket, hft, hfe]
  rw [if_neg h1, if_neg h2]

theorem useTicket_wrongScope (db : DB) (id : Str) (caller : Principal)
    (nowDate : Nat) {ticket : Ticket} {event : Event}
    (hft : findTicketById db id = some ticket)
    (hfe : findEvent db ticket.event = some event)
    (horg : event.organization ≠ caller.organization) :
    useTicket db id caller nowDate = (.error .wrongScope, db) := by
  have h1 : (event.organization != caller.organization) = true := by
    simp [bne_iff_ne, horg]
  simp only [useTicket, hft, hfe]
  rw [if_pos h1]

/-- Every run of the `/:id/use` handler either performs the `used` transition
on the addressed active ticket, or fails and returns the store untouched. -/
theorem useTicket_cases (db : DB) (id : Str) (caller : Principal)
    (nowDate : Nat) :
    (∃ ticket event, findTicketById db id = some ticket ∧
      findEvent db ticket.event = some event ∧
      event.organization = caller.organization ∧
      ticket.status = TicketStatus.active ∧
      useTicket db id caller nowDate =
        (.ok (markUsed caller nowDate ticket),
         { db with
            tickets := updateFirst (fun t => t.mongoId == id)
              (markUsed caller nowDate) db.tickets })) ∨
    (∃ e, useTicket db id caller nowDate = (.error e, db)) := by
  cases hft : findTicketById db id with
  | none => exact Or.inr ⟨.notFound, by simp only [useTicket, hft]⟩
  | some ticket =>
    cases hfe : findEvent db ticket.event with
    | none => exact Or.inr ⟨.serverError, by simp only [useTicket, hft, hfe]⟩
    | some event =>
      by_cases horg : event.organization = caller.organization
      · by_cases hst : ticket.status = TicketStatus.active
        · exact Or.inl ⟨ticket, event, rfl, hfe, horg, hst,
            useTicket_ok db id caller nowDate hft hfe horg hst⟩
        · refine Or.inr ⟨.notActive, ?_⟩
          have h1 : ¬ ((event.organization != caller.organization) = true) := by
            simp [horg]
          have h2 : (ticket.status != TicketStatus.active) = true := by
            simp [bne_iff_ne, hst]
          simp only [useTicket, hft, hfe]
          rw [if_neg h1, if_pos h2]
      · exact Or.inr ⟨.wrongScope,
          useTicket_wrongScope db id caller nowDate hft hfe horg⟩

/-! ## Counting lemmas and state invariants -/

/-- Number of tickets in `{active, used}` status held by one user for one
event — the quantity bounded by the anti-duplicate-claim invariant. -/
def pairCount (db : DB) (eventId userId : Str) : Nat :=
  (db.tickets.filter
    (fun t => t.event == eventId && t.user == userId && isOccupying t.status)).length

/-- Per-event capacity invariant: no event has more active tickets than its
capacity. -/
def capacityInv (db : DB) : Prop :=
  ∀ e ∈ db.events, activeCount db e.eid ≤ e.capacity

/-- Anti-duplicate-claim invariant: at most one ticket in `{active, used}`
status per (event, holder) pair. -/
def pairInv (db : DB) : Prop :=
  ∀ eventId userId, pairCount db eventId userId ≤ 1

theorem filter_length_replace_eq {α : Type _} (q : α → Bool) (x y : α)
    (l₁ l₂ : List α) (h : q y = q x) :
    ((l₁ ++ y :: l₂).filter q).length = ((l₁ ++ x :: l₂).filter q).length := by
  simp only [List.filter_append, List.filter_cons, h, List.length_append]
  cases hx : q x <;> simp

theorem filter_length_replace_le {α : Type _} (q : α → Bool) (x y : α)
    (l₁ l₂ : List α) (h : q y = false) :
    ((l₁ ++ y :: l₂).filter q).length ≤ ((l₁ ++ x :: l₂).filter q).length := by
  simp only [List.filter_append, List.filter_cons, h, Bool.false_eq_true,
    if_false, List.length_append]
  cases hx : q x
  · simp
  · simp only [if_true, List.length_cons]
    omega

theorem filter_length_replace_pred {α : Type _} (q : α → Bool) (x y : α)
    (l₁ l₂ : List α) (hx : q x = true) (hy : q y = false) :
    ((l₁ ++ y :: l₂).filter q).length + 1 =
      ((l₁ ++ x :: l₂).filter q).length := by
  simp only [List.filter_append, List.filter_cons, hx, hy, Bool.false_eq_true,
    if_false, if_true, List.length_append, List.length_cons]
  omega

theorem pairCount_eq_zero_of_not_occupying {db : DB} {eventId userId : Str}
    (h : hasOccupyingTicket db eventId userId = false) :
    pairCount db eventId userId = 0 := by
  unfold hasOccupyingTicket at h
  unfold pairCount
  rw [List.length_eq_zero, List.filter_eq_nil_iff]
  intro t ht
  have := List.any_eq_false.mp (Bool.eq_false_iff.mpr
    (Bool.eq_false_iff.mp h)) t ht
  simpa using this

theorem hasOccupyingTicket_true_of_mem {db : DB} {eventId userId : Str}
    {t : Ticket} (ht : t ∈ db.tickets) (he : t.event = eventId)
    (hu : t.user = userId) (hs : isOccupying t.status = true) :
    hasOccupyingTicket db eventId userId = true := by
  unfold hasOccupyingTicket
  rw [List.any_eq_true]
  exact ⟨t, ht, by simp [he, hu, hs]⟩

theorem capacityInv_claimTicket {db : DB} (inp : ClaimInput)
    (hnd : (db.events.map Event.eid).Nodup) (hinv : capacityInv db) :
    capacityInv (claimTicket db inp).2 := by
  rcases claimTicket_cases db inp with
    ⟨event, hfe, -, -, -, -, hcap, heq⟩ | ⟨e, heq⟩
  · rw [heq]
    intro e' he'
    have he'' : e' ∈ db.events := he'
    obtain ⟨hmem, heid⟩ := findEvent_spec hfe
    show ((newTicket inp event :: db.tickets).filter
      (fun t => t.event == e'.eid && t.status == TicketStatus.active)).length
      ≤ e'.capacity
    rw [List.filter_cons]
    by_cases hsame : e'.eid = inp.eventId
    · have hee : e' = event :=
        List.inj_on_of_nodup_map hnd he'' hmem (by rw [hsame, heid])
      have hq : ((newTicket inp event).event == e'.eid &&
          (newTicket inp event).status == TicketStatus.active) = true := by
        simp [newTicket, hsame]
      rw [if_pos hq]
      have hlt : (db.tickets.filter
          (fun t => t.event == e'.eid && t.status ==
            TicketStatus.active)).length < e'.capacity := by
        have : activeCount db e'.eid < e'.capacity := by
          rw [hsame, hee]
          exact hcap
        exact this
      simp only [List.length_cons]
      omega
    · have hq : ((newTicket inp event).event == e'.eid &&
          (newTicket inp event).status == TicketStatus.active) = false := by
        have hne : (inp.eventId == e'.eid) = false := by
          simp only [beq_eq_false_iff_ne, ne_eq]
          exact fun h => hsame h.symm
        simp [newTicket, hne]
      rw [hq]
      simp only [Bool.false_eq_true, if_false]
      exact hinv e' he''
  · rw [heq]
    exact hinv

theorem capacityInv_scanTicket {db : DB} (qrData : Str) (caller : Principal)
    (nowDate : Nat) (hinv : capacityInv db) :
    capacityInv (scanTicket db qrData caller nowDate).2 := by
  rcases scanTicket_cases db qrData caller nowDate with
    ⟨p, ticket, event, -, hft, -, -, -, -, heq⟩ | ⟨e, heq⟩
  · rw [heq]
    obtain ⟨l₁, l₂, hl, -, -, hupd⟩ :=
      updateFirst_decomp_of_find? (f := markUsed caller nowDate) hft
    intro e' he'
    have he'' : e' ∈ db.events := he'
    have hfalse : (TicketStatus.used == TicketStatus.active) = false := by
      decide
    have hrep := filter_length_replace_le
      (fun t : Ticket => t.event == e'.eid && t.status == TicketStatus.active)
      ticket (markUsed caller nowDate ticket) l₁ l₂
      (by simp [markUsed, hfalse])
    show ((updateFirst (fun t => t.qrCode == qrData) (markUsed caller nowDate)
      db.tickets).filter
      (fun t => t.event == e'.eid && t.status == TicketStatus.active)).length
      ≤ e'.capacity
    rw [hupd]
    refine le_trans hrep ?_
    rw [← hl]
    exact hinv e' he''
  · rw [heq]
    exact hinv

theorem capacityInv_useTicket {db : DB} (id : Str) (caller : Principal)
    (nowDate : Nat) (hinv : capacityInv db) :
    capacityInv (useTicket db id caller nowDate).2 := by
  rcases useTicket_cases db id caller nowDate with
    ⟨ticket, event, hft, -, -, -, heq⟩ | ⟨e, heq⟩
  · rw [heq]
    obtain ⟨l₁, l₂, hl, -, -, hupd⟩ :=
      updateFirst_decomp_of_find? (f := markUsed caller nowDate) hft
    intro e' he'
    have he'' : e' ∈ db.events := he'
    have hfalse : (TicketStatus.used == TicketStatus.active) = false := by
      decide
    have hrep := filter_length_replace_le
      (fun t : Ticket => t.event == e'.eid && t.status == TicketStatus.active)
      ticket (markUsed caller nowDate ticket) l₁ l₂
      (by simp [markUsed, hfalse])
    show ((updateFirst (fun t => t.mongoId == id) (markUsed caller nowDate)
      db.tickets).filter
      (fun t => t.event == e'.eid && t.status == TicketStatus.active)).length
      ≤ e'.capacity
    rw [hupd]
    refine le_trans hrep ?_
    rw [← hl]
    exact hinv e' he''
  · rw [heq]
    exact hinv

theorem pairInv_claimTicket {db : DB} (inp : ClaimInput) (hinv : pairInv db) :
    pairInv (claimTicket db inp).2 := by
  rcases claimTicket_cases db inp with
    ⟨event, hfe, -, -, -, hdup, -, heq⟩ | ⟨e, heq⟩
  · rw [heq]
    intro eventId userId
    show ((newTicket inp event :: db.tickets).filter
      (fun t => t.event == eventId && t.user == userId &&
        isOccupying t.status)).length ≤ 1
    rw [List.filter_cons]
    by_cases hsame : inp.eventId = eventId ∧ inp.userId = userId
    · have hq : ((newTicket inp event).event == eventId &&
          (newTicket inp event).user == userId &&
          isOccupying (newTicket inp event).status) = true := by
        simp [newTicket, hsame.1, hsame.2, isOccupying]
      rw [if_pos hq]
      have h0 : pairCount db eventId userId = 0 := by
        rcases hsame with ⟨rfl, rfl⟩
        exact pairCount_eq_zero_of_not_occupying hdup
      unfold pairCount at h0
      simp only [List.length_cons]
      omega
    · have hq : ((newTicket inp event).event == eventId &&
          (newTicket inp event).user == userId &&
          isOccupying (newTicket inp event).status) = false := by
        rcases Decidable.not_and_iff_or_not.mp hsame with h | h <;>
          simp [newTicket, h]
      rw [hq]
      simp only [Bool.false_eq_true, if_false]
      exact hinv eventId userId
  · rw [heq]
    exact hinv

theorem pairInv_scanTicket {db : DB} (qrData : Str) (caller : Principal)
    (nowDate : Nat) (hinv : pairInv db) :
    pairInv (scanTicket db qrData caller nowDate).2 := by
  rcases scanTicket_cases db qrData caller nowDate with
    ⟨p, ticket, event, -, hft, -, -, hst, -, heq⟩ | ⟨e, heq⟩
  · rw [heq]
    obtain ⟨l₁, l₂, hl, -, -, hupd⟩ :=
      updateFirst_decomp_of_find? (f := markUsed caller nowDate) hft
    intro eventId userId
    have hrep := filter_length_replace_eq
      (fun t : Ticket => t.event == eventId && t.user == userId &&
        isOccupying t.status)
      ticket (markUsed caller nowDate ticket) l₁ l₂
      (by simp [markUsed, isOccupying, hst])
    show ((updateFirst (fun t => t.qrCode == qrData) (markUsed caller nowDate)
      db.tickets).filter
      (fun t => t.event == eventId && t.user == userId &&
        isOccupying t.status)).length ≤ 1
    rw [hupd, hrep, ← hl]
    exact hinv eventId userId
  · rw [heq]
    exact hinv

theorem pairInv_useTicket {db : DB} (id : Str) (caller : Principal)
    (nowDate : Nat) (hinv : pairInv db) :
    pairInv (useTicket db id caller nowDate).2 := by
  rcases useTicket_cases db id caller nowDate with
    ⟨ticket, event, hft, -, -, hst, heq⟩ | ⟨e, heq⟩
  · rw [heq]
    obtain ⟨l₁, l₂, hl, -, -, hupd⟩ :=
      updateFirst_decomp_of_find? (f := markUsed caller nowDate) hft
    intro eventId userId
    have hrep := filter_length_replace_eq
      (fun t : Ticket => t.event == eventId && t.user == userId &&
        isOccupying t.status)
      ticket (markUsed caller nowDate ticket) l₁ l₂
      (by simp [markUsed, isOccupying, hst])
    show ((updateFirst (fun t => t.mongoId == id) (markUsed caller nowDate)
      db.tickets).filter
      (fun t => t.event == eventId && t.user == userId &&
        isOccupying t.status)).length ≤ 1
    rw [hupd, hrep, ← hl]
    exact hinv eventId userId
  · rw [heq]
    exact hinv

/-! ## Membership frame lemmas and the repeated-scan lemma -/

theorem mem_updateFirst_of_fix {α : Type _} {p : α → Bool} {f : α → α}
    {l : List α} {t : α} (ht : t ∈ l) (hfix : f t = t) :
    t ∈ updateFirst p f l := by
  induction l with
  | nil => cases ht
  | cons x xs ih =>
    rcases List.mem_cons.mp ht with rfl | hxs
    · unfold updateFirst
      by_cases hp : p t = true
      · rw [if_pos hp, hfix]
        exact List.mem_cons_self _ _
      · rw [if_neg hp]
        exact List.mem_cons_self _ _
    · unfold updateFirst
      by_cases hp : p x = true
      · rw [if_pos hp]
        exact List.mem_cons_of_mem _ hxs
      · rw [if_neg hp]
        exact List.mem_cons_of_mem _ (ih hxs)

theorem mem_updateFirst_of_ne {α : Type _} {p : α → Bool} (f : α → α)
    {l : List α} {x t : α} (hfind : l.find? p = some x) (ht : t ∈ l)
    (hne : t ≠ x) : t ∈ updateFirst p f l := by
  obtain ⟨l₁, l₂, hl, -, -, hupd⟩ := updateFirst_decomp_of_find? (f := f) hfind
  rw [hupd]
  rw [hl] at ht
  rcases List.mem_append.mp ht with h | h
  · exact List.mem_append_left _ h
  · rcases List.mem_cons.mp h with rfl | h
    · exact absurd rfl hne
    · exact List.mem_append_right _ (List.mem_cons_of_mem _ h)

/-- After a successful scan, any further scan of the same credential by a
principal of the same organization fails with `notActive` and leaves the
store untouched. -/
theorem scanTicket_rescan_notActive (db : DB) (qrData : Str)
    (c c' : Principal) (n n' : Nat) (horg : c'.organization = c.organization)
    {t' : Ticket} (h : (scanTicket db qrData c n).1 = .ok t') :
    scanTicket (scanTicket db qrData c n).2 qrData c' n' =
      (.error .notActive, (scanTicket db qrData c n).2) := by
  rcases scanTicket_cases db qrData c n with
    ⟨p, ticket, event, hp, hft, hfe, horg1, hst, hd, heq⟩ | ⟨e, heq⟩
  · obtain ⟨l₁, l₂, hl, hfail, hpx, hupd⟩ :=
      updateFirst_decomp_of_find? (f := markUsed c n) hft
    rw [heq]
    have hq2 : ((markUsed c n ticket).qrCode == qrData) = true := hpx
    have hft2 : List.find? (fun t => t.qrCode == qrData)
        (updateFirst (fun t => t.qrCode == qrData) (markUsed c n) db.tickets) =
        some (markUsed c n ticket) := by
      rw [hupd]
      exact find?_append_cons hfail hq2 l₂
    exact scanTicket_notActive _ qrData c' n' hp hft2 hfe
      (horg1.trans horg.symm) (by simp [markUsed])
  · rw [heq] at h
    simp at h

/-! ## Concrete fixtures used by witnesses and counterexamples -/

def orgA : Str := ['o', '1']

def orgB : Str := ['o', '2']

/-- A published, approved, future event of organization `o1`, capacity 1. -/
def fixEvent1 : Event :=
  { eid := ['e', '1'], capacity := 1, status := EventStatus.published,
    isApproved := true, date := 100, organization := orgA,
    ticketType := TicketType.free, ticketPrice := 0 }

def fixPayloadU1 : QrPayload :=
  { ticketId := ['t', '1'], eventId := ['e', '1'], userId := ['u', '1'],
    timestamp := ['s', '1'] }

/-- A ticket of holder `u1` for event `e1` already redeemed (`used`). -/
def fixTicketUsed : Ticket :=
  { mongoId := ['m', '1'], ticketId := ['t', '1'], event := ['e', '1'],
    user := ['u', '1'], qrCode := qrEncode fixPayloadU1,
    status := TicketStatus.used, usedAt := some 10, usedBy := some ['p', '1'],
    price := 0 }

def fixTicketActive : Ticket :=
  { fixTicketUsed with
    status := TicketStatus.active
    usedAt := none
    usedBy := none }

def fixTicketCancelled : Ticket :=
  { fixTicketUsed with
    status := TicketStatus.cancelled
    usedAt := none
    usedBy := none }

def fixDbEmpty : DB := { events := [fixEvent1], tickets := [] }

def fixDbUsed : DB := { events := [fixEvent1], tickets := [fixTicketUsed] }

def fixDbActive : DB := { events := [fixEvent1], tickets := [fixTicketActive] }

def fixDbCancelled : DB :=
  { events := [fixEvent1], tickets := [fixTicketCancelled] }

def fixClaimU2 : ClaimInput :=
  { eventId := ['e', '1'], userId := ['u', '2'], nowDate := 50,
    nowIso := ['s', '2'], freshTicketId := ['t', '2'],
    freshMongoId := ['m', '2'] }

def fixClaimU1 : ClaimInput := { fixClaimU2 with userId := ['u', '1'] }

def fixOrganizerA : Principal := { pid := ['p', '1'], organization := orgA }

def fixOrganizerB : Principal := { pid := ['p', '2'], organization := orgB }

/-- Like `fixEvent1` but with capacity 2. -/
def fix7Event : Event := { fixEvent1 with capacity := 2 }

def fix7Db : DB := { events := [fix7Event], tickets := [fixTicketUsed] }

/-! ## Claim theorems -/

/-- C1 (counterexample to the claim as stated): with event capacity 1 and one
`used` ticket, the occupied-capacity count (tickets in `{active, used}`)
already equals the capacity, yet a claim by a new holder does not fail with
`SoldOut` — it succeeds and leaves the occupied-capacity count at 2, above
the capacity.  The code counts only `active` tickets in its capacity check. -/
theorem C1_counterexample :
    occupiedCount fixDbUsed fixClaimU2.eventId = 1 ∧
    fixEvent1.capacity = 1 ∧
    (claimTicket fixDbUsed fixClaimU2).1 ≠ Except.error ClaimError.soldOut ∧
    occupiedCount (claimTicket fixDbUsed fixClaimU2).2 fixClaimU2.eventId
      = 2 := by
  decide

/-- C1 (amended): for every event with capacity C, the number of tickets in
`active` status never exceeds C — a claim fails with `SoldOut` exactly when
the count of `active` tickets is at least the capacity (given the earlier
checks passed), a failed claim performs no mutation, and every engine
operation preserves the active-count ≤ capacity invariant. -/
theorem C1_capacity_guard :
    (∀ db inp event, findEvent db inp.eventId = some event →
      event.status = EventStatus.published → event.isApproved = true →
      ¬ event.date < inp.nowDate →
      hasOccupyingTicket db inp.eventId inp.userId = false →
      ((claimTicket db inp).1 = Except.error ClaimError.soldOut ↔
        event.capacity ≤ activeCount db inp.eventId)) ∧
    (∀ db inp e, (claimTicket db inp).1 = Except.error e →
      (claimTicket db inp).2 = db) ∧
    (∀ db inp, (db.events.map Event.eid).Nodup → capacityInv db →
      capacityInv (claimTicket db inp).2) ∧
    (∀ db qrData caller nowDate, capacityInv db →
      capacityInv (scanTicket db qrData caller nowDate).2) ∧
    (∀ db id caller nowDate, capacityInv db →
      capacityInv (useTicket db id caller nowDate).2) := by
  refine ⟨?_, ?_, ?_, ?_, ?_⟩
  · intro db inp event hfe hs ha hd hdup
    constructor
    · intro hsold
      by_contra hcap
      rw [claimTicket_eq_newTicket db inp hfe hs ha hd hdup
        (Nat.not_le.mp hcap)] at hsold
      simp at hsold
    · intro hcap
      rw [claimTicket_soldOut db inp hfe hs ha hd hdup hcap]
  · intro db inp e h
    rcases claimTicket_cases db inp with
      ⟨event, -, -, -, -, -, -, heq⟩ | ⟨e', heq⟩
    · rw [heq] at h
      simp at h
    · rw [heq]
  · intro db inp hnd hinv
    exact capacityInv_claimTicket inp hnd hinv
  · intro db q c n hinv
    exact capacityInv_scanTicket q c n hinv
  · intro db i c n hinv
    exact capacityInv_useTicket i c n hinv

/-- C1 witness: the amended sold-out criterion evaluated on a concrete store
holding one active ticket for a capacity-1 event. -/
theorem C1_witness :
    (claimTicket fixDbActive fixClaimU2).1 =
        Except.error ClaimError.soldOut ↔
      fixEvent1.capacity ≤ activeCount fixDbActive fixClaimU2.eventId :=
  C1_capacity_guard.1 fixDbActive fixClaimU2 fixEvent1 (by decide) (by decide)
    (by decide) (by decide) (by decide)

/-- C2: every engine operation preserves the at-most-one-`{active, used}`
ticket per (event, holder) invariant, and a claim by a holder who already has
a ticket in `{active, used}` status for the event fails with
`AlreadyClaimed` and performs no mutation. -/
theorem C2_duplicate_guard :
    (∀ db inp, pairInv db → pairInv (claimTicket db inp).2) ∧
    (∀ db qrData caller nowDate, pairInv db →
      pairInv (scanTicket db qrData caller nowDate).2) ∧
    (∀ db id caller nowDate, pairInv db →
      pairInv (useTicket db id caller nowDate).2) ∧
    (∀ db inp event t, findEvent db inp.eventId = some event →
      event.status = EventStatus.published → event.isApproved = true →
      ¬ event.date < inp.nowDate → t ∈ db.tickets → t.event = inp.eventId →
      t.user = inp.userId → isOccupying t.status = true →
      claimTicket db inp = (.error .alreadyClaimed, db)) := by
  refine ⟨?_, ?_, ?_, ?_⟩
  · intro db inp h
    exact pairInv_claimTicket inp h
  · intro db q c n h
    exact pairInv_scanTicket q c n h
  · intro db i c n h
    exact pairInv_useTicket i c n h
  · intro db inp event t hfe hs ha hd ht he hu hocc
    exact claimTicket_alreadyClaimed db inp hfe hs ha hd
      (hasOccupyingTicket_true_of_mem ht he hu hocc)

/-- C2 witness: a second claim by holder `u1`, who already holds an active
ticket for event `e1`, fails with `AlreadyClaimed` and mutates nothing. -/
theorem C2_witness :
    claimTicket fixDbActive fixClaimU1 =
      (.error .alreadyClaimed, fixDbActive) :=
  C2_duplicate_guard.2.2.2 fixDbActive fixClaimU1 fixEvent1 fixTicketActive
    (by decide) (by decide) (by decide) (by decide) (by decide) (by decide)
    (by decide) (by decide)

/-- C3: with the credential parsed, the ticket found, the organization scope
matching and the event date not elapsed, redemption succeeds exactly when the
ticket's status is `active`; on success it stores status `used`, the
redemption timestamp and the redeeming principal, and any further scan of the
same credential (same organization) fails with `notActive`. -/
theorem C3_redeem_exactly_once :
    (∀ db qrData caller nowDate p ticket event,
      qrDecode qrData = some p →
      findTicketByQr db qrData = some ticket →
      findEvent db ticket.event = some event →
      event.organization = caller.organization →
      ¬ event.date < nowDate →
      ((scanTicket db qrData caller nowDate).1 =
          .ok (markUsed caller nowDate ticket) ↔
        ticket.status = TicketStatus.active)) ∧
    (∀ caller nowDate ticket,
      (markUsed caller nowDate ticket).status = TicketStatus.used ∧
      (markUsed caller nowDate ticket).usedAt = some nowDate ∧
      (markUsed caller nowDate ticket).usedBy = some caller.pid) ∧
    (∀ db qrData caller nowDate p ticket event,
      qrDecode qrData = some p →
      findTicketByQr db qrData = some ticket →
      findEvent db ticket.event = some event →
      event.organization = caller.organization →
      ticket.status = TicketStatus.active → ¬ event.date < nowDate →
      scanTicket db qrData caller nowDate =
        (.ok (markUsed caller nowDate ticket),
         { db with
            tickets := updateFirst (fun t => t.qrCode == qrData)
              (markUsed caller nowDate) db.tickets })) ∧
    (∀ db qrData c c' n n' t', c'.organization = c.organization →
      (scanTicket db qrData c n).1 = .ok t' →
      scanTicket (scanTicket db qrData c n).2 qrData c' n' =
        (.error .notActive, (scanTicket db qrData c n).2)) := by
  refine ⟨?_, ?_, ?_, ?_⟩
  · intro db q c n p ticket event hp hft hfe horg hd
    constructor
    · intro hok
      by_contra hst
      rw [scanTicket_notActive db q c n hp hft hfe horg hst] at hok
      simp at hok
    · intro hst
      rw [scanTicket_ok db q c n hp hft hfe horg hst hd]
  · intro c n t
    exact ⟨rfl, rfl, rfl⟩
  · intro db q c n p ticket event hp hft hfe horg hst hd
    exact scanTicket_ok db q c n hp hft hfe horg hst hd
  · intro db q c c' n n' t' horg h
    exact scanTicket_rescan_notActive db q c c' n n' horg h

/-- C3 witness: scanning the stored credential of the concrete active ticket
succeeds if and only if that ticket is active. -/
theorem C3_witness :
    (scanTicket fixDbActive (qrEncode fixPayloadU1) fixOrganizerA 50).1 =
        .ok (markUsed fixOrganizerA 50 fixTicketActive) ↔
      fixTicketActive.status = TicketStatus.active :=
  C3_redeem_exactly_once.1 fixDbActive (qrEncode fixPayloadU1) fixOrganizerA
    50 fixPayloadU1 fixTicketActive fixEvent1 (by decide) (by decide)
    (by decide) (by decide) (by decide)

/-- C4: whenever the acting organizer's organization differs from the
organization of the ticket's event, both redemption routes fail with the
wrong-scope error and leave the store untouched, for all identifier values. -/
theorem C4_cross_org_rejected :
    (∀ db qrData caller nowDate p ticket event,
      qrDecode qrData = some p →
      findTicketByQr db qrData = some ticket →
      findEvent db ticket.event = some event →
      event.organization ≠ caller.organization →
      scanTicket db qrData caller nowDate = (.error .wrongScope, db)) ∧
    (∀ db id caller nowDate ticket event,
      findTicketById db id = some ticket →
      findEvent db ticket.event = some event →
      event.organization ≠ caller.organization →
      useTicket db id caller nowDate = (.error .wrongScope, db)) := by
  constructor
  · intro db q c n p ticket event hp hft hfe horg
    exact scanTicket_wrongScope db q c n hp hft hfe horg
  · intro db i c n ticket event hft hfe horg
    exact useTicket_wrongScope db i c n hft hfe horg

/-- C4 witness: an organizer of organization `o2` scanning a ticket of an
`o1` event is rejected with the wrong-scope error and mutates nothing. -/
theorem C4_witness :
    scanTicket fixDbActive (qrEncode fixPayloadU1) fixOrganizerB 50 =
      (.error .wrongScope, fixDbActive) :=
  C4_cross_org_rejected.1 fixDbActive (qrEncode fixPayloadU1) fixOrganizerB
    50 fixPayloadU1 fixTicketActive fixEvent1 (by decide) (by decide)
    (by decide) (by decide)

/-- C5: decoding the encoded credential reproduces exactly the four payload
fields; the redemption lookup is an equality lookup, so a found ticket's
stored serialization is exactly the presented string, and a string matching
no stored serialization makes the scan fail with `malformed` or `notFound`. -/
theorem C5_credential_binding :
    (∀ p : QrPayload, '"' ∉ p.ticketId → '"' ∉ p.eventId → '"' ∉ p.userId →
      '"' ∉ p.timestamp → qrDecode (qrEncode p) = some p) ∧
    (∀ db s t, findTicketByQr db s = some t → t.qrCode = s) ∧
    (∀ db s caller nowDate, (∀ t ∈ db.tickets, t.qrCode ≠ s) →
      (scanTicket db s caller nowDate).1 = Except.error RedeemError.malformed ∨
      (scanTicket db s caller nowDate).1 =
        Except.error RedeemError.notFound) := by
  refine ⟨?_, ?_, ?_⟩
  · intro p h1 h2 h3 h4
    exact qrDecode_qrEncode p h1 h2 h3 h4
  · intro db s t h
    exact (findTicketByQr_spec h).2
  · intro db s c n hall
    cases hp : qrDecode s with
    | none =>
      left
      have heq : scanTicket db s c n = (.error .malformed, db) := by
        simp only [scanTicket, hp]
      rw [heq]
    | some p =>
      right
      have hft : findTicketByQr db s = none := by
        unfold findTicketByQr
        rw [List.find?_eq_none]
        intro t ht
        simpa [beq_iff_eq] using hall t ht
      have heq : scanTicket db s c n = (.error .notFound, db) := by
        simp only [scanTicket, hp, hft]
      rw [heq]

/-- C5 witness: the round trip evaluated on a concrete payload. -/
theorem C5_witness : qrDecode (qrEncode fixPayloadU1) = some fixPayloadU1 :=
  C5_credential_binding.1 fixPayloadU1 (by decide) (by decide) (by decide)
    (by decide)

/-! ## Claim theorems C6 to C10 -/

/-- C6: on a successful claim the stored payload is the serialization of
exactly `{freshTicketId, eventId, userId, nowIso}` — a function of those four
fields alone — and the `used` transition leaves the credential unchanged, so
the mutable status is never part of the payload. -/
theorem C6_payload_of_claim :
    (∀ db inp t db2, claimTicket db inp = (.ok t, db2) →
      t.qrCode = qrEncode
        ⟨inp.freshTicketId, inp.eventId, inp.userId, inp.nowIso⟩) ∧
    (∀ p₁ p₂ : QrPayload, p₁.ticketId = p₂.ticketId →
      p₁.eventId = p₂.eventId → p₁.userId = p₂.userId →
      p₁.timestamp = p₂.timestamp → qrEncode p₁ = qrEncode p₂) ∧
    (∀ db qrData caller nowDate t',
      (scanTicket db qrData caller nowDate).1 = .ok t' →
      t'.qrCode = qrData) := by
  refine ⟨?_, ?_, ?_⟩
  · intro db inp t db2 h
    rcases claimTicket_cases db inp with
      ⟨event, -, -, -, -, -, -, heq⟩ | ⟨e, heq⟩
    · rw [heq] at h
      injection h with h1 h2
      injection h1 with h1
      rw [← h1]
      rfl
    · rw [heq] at h
      simp at h
  · intro p₁ p₂ h1 h2 h3 h4
    cases p₁
    cases p₂
    simp only at h1 h2 h3 h4
    rw [h1, h2, h3, h4]
  · intro db q c n t' h
    rcases scanTicket_cases db q c n with
      ⟨p, ticket, event, -, hft, -, -, -, -, heq⟩ | ⟨e, heq⟩
    · rw [heq] at h
      simp only [Except.ok.injEq] at h
      rw [← h]
      have hq : ticket.qrCode = q := (findTicketByQr_spec hft).2
      simpa [markUsed] using hq
    · rw [heq] at h
      simp at h

/-- C6 witness: the ticket created by a concrete successful claim carries the
serialization of exactly its four payload fields. -/
theorem C6_witness :
    (newTicket fixClaimU2 fixEvent1).qrCode =
      qrEncode ⟨fixClaimU2.freshTicketId, fixClaimU2.eventId,
        fixClaimU2.userId, fixClaimU2.nowIso⟩ :=
  C6_payload_of_claim.1 fixDbEmpty fixClaimU2 (newTicket fixClaimU2 fixEvent1)
    (claimTicket fixDbEmpty fixClaimU2).2 (by decide)

theorem capacityStatus_eq {db : DB} {eventId : Str} {ev : Event}
    (hfe : findEvent db eventId = some ev) :
    capacityStatus db eventId = some
      { ticketsIssued := activeCount db eventId
        remainingCapacity := (ev.capacity : Int) - (activeCount db eventId : Int)
        capacity := ev.capacity } := by
  unfold capacityStatus
  rw [hfe]
  rfl

theorem activeCount_cancelTicket {db : DB} {tid : Str} {t : Ticket}
    {eventId : Str}
    (hfind : db.tickets.find? (fun t' => t'.ticketId == tid) = some t)
    (he : t.event = eventId) (hst : t.status = TicketStatus.active) :
    activeCount (cancelTicket db tid) eventId + 1 = activeCount db eventId := by
  obtain ⟨l₁, l₂, hl, -, -, hupd⟩ := updateFirst_decomp_of_find?
    (f := fun t =>
      if t.status == TicketStatus.active then
        { t with status := TicketStatus.cancelled }
      else t) hfind
  have hguard : (if t.status == TicketStatus.active then
      { t with status := TicketStatus.cancelled } else t) =
      { t with status := TicketStatus.cancelled } := by
    rw [if_pos (by simp [hst])]
  have hca : (TicketStatus.cancelled == TicketStatus.active) = false := by
    decide
  have hrep := filter_length_replace_pred
    (fun t' : Ticket => t'.event == eventId &&
      t'.status == TicketStatus.active)
    t { t with status := TicketStatus.cancelled } l₁ l₂
    (by simp [he, hst]) (by simp [hca])
  show ((updateFirst (fun t' => t'.ticketId == tid) _ db.tickets).filter
    (fun t' => t'.event == eventId &&
      t'.status == TicketStatus.active)).length + 1 = activeCount db eventId
  rw [hupd, hguard, hrep, ← hl]
  rfl

/-- C7 (counterexample to the claim as stated): with event capacity 2 and one
`used` ticket, the accessor reports `remaining = 2` (capacity minus the
`active` count, which is 0), not `capacity − (active+used count) = 1`. -/
theorem C7_counterexample :
    (capacityStatus fix7Db fixClaimU2.eventId).map
        (fun v => v.remainingCapacity) = some 2 ∧
    (fix7Event.capacity : Int) -
      (occupiedCount fix7Db fixClaimU2.eventId : Int) = 1 ∧
    ¬ ((2 : Int) = 1) := by
  decide

/-- C7 (amended): the capacity-status accessor reports
`remaining = capacity − (count of tickets in active status)`, and cancelling
an active ticket frees exactly one capacity slot in the reported remaining
count. -/
theorem C7_capacity_status :
    (∀ db eventId ev, findEvent db eventId = some ev →
      capacityStatus db eventId = some
        { ticketsIssued := activeCount db eventId
          remainingCapacity :=
            (ev.capacity : Int) - (activeCount db eventId : Int)
          capacity := ev.capacity }) ∧
    (∀ db tid t eventId,
      db.tickets.find? (fun t' => t'.ticketId == tid) = some t →
      t.event = eventId → t.status = TicketStatus.active →
      activeCount (cancelTicket db tid) eventId + 1 =
        activeCount db eventId) ∧
    (∀ db tid t eventId ev v v', findEvent db eventId = some ev →
      db.tickets.find? (fun t' => t'.ticketId == tid) = some t →
      t.event = eventId → t.status = TicketStatus.active →
      capacityStatus db eventId = some v →
      capacityStatus (cancelTicket db tid) eventId = some v' →
      v'.remainingCapacity = v.remainingCapacity + 1) := by
  refine ⟨?_, ?_, ?_⟩
  · intro db eventId ev hfe
    exact capacityStatus_eq hfe
  · intro db tid t eventId hfind he hst
    exact activeCount_cancelTicket hfind he hst
  · intro db tid t eventId ev v v' hfe hfind he hst hv hv'
    have hcount := activeCount_cancelTicket hfind he hst
    have hfe2 : findEvent (cancelTicket db tid) eventId = some ev := hfe
    rw [capacityStatus_eq hfe] at hv
    rw [capacityStatus_eq hfe2] at hv'
    injection hv with hv
    injection hv' with hv'
    rw [← hv, ← hv']
    simp only []
    have : (activeCount (cancelTicket db tid) eventId : Int) + 1 =
        (activeCount db eventId : Int) := by
      exact_mod_cast hcount
    omega

/-- C7 witness: cancelling the concrete active ticket raises the reported
remaining capacity from 0 to 1. -/
theorem C7_witness :
    (CapacityView.mk 0 1 1).remainingCapacity =
      (CapacityView.mk 1 0 1).remainingCapacity + 1 :=
  C7_capacity_status.2.2 fixDbActive fixTicketActive.ticketId fixTicketActive
    fixClaimU2.eventId fixEvent1 (CapacityView.mk 1 0 1)
    (CapacityView.mk 0 1 1) (by decide) (by decide) (by decide) (by decide)
    (by decide) (by decide)

/-- C8: `active` is the sole status of a freshly claimed ticket; tickets in a
non-`active` (terminal) status survive every engine operation unchanged; and
the only status transition either redemption route performs is
`active → used` on the looked-up ticket. -/
theorem C8_lifecycle_terminal :
    (∀ db inp t db2, claimTicket db inp = (.ok t, db2) →
      t.status = TicketStatus.active) ∧
    (∀ db inp t, t ∈ db.tickets → t ∈ (claimTicket db inp).2.tickets) ∧
    (∀ db qrData caller nowDate t, t ∈ db.tickets →
      t.status ≠ TicketStatus.active →
      t ∈ (scanTicket db qrData caller nowDate).2.tickets) ∧
    (∀ db id caller nowDate t, t ∈ db.tickets →
      t.status ≠ TicketStatus.active →
      t ∈ (useTicket db id caller nowDate).2.tickets) ∧
    (∀ db tid t, t ∈ db.tickets → t.status ≠ TicketStatus.active →
      t ∈ (cancelTicket db tid).tickets) ∧
    (∀ db qrData caller nowDate t',
      (scanTicket db qrData caller nowDate).1 = .ok t' →
      ∃ ticket, findTicketByQr db qrData = some ticket ∧
        ticket.status = TicketStatus.active ∧
        t' = markUsed caller nowDate ticket) ∧
    (∀ db id caller nowDate t',
      (useTicket db id caller nowDate).1 = .ok t' →
      ∃ ticket, findTicketById db id = some ticket ∧
        ticket.status = TicketStatus.active ∧
        t' = markUsed caller nowDate ticket) := by
  refine ⟨?_, ?_, ?_, ?_, ?_, ?_, ?_⟩
  · intro db inp t db2 h
    rcases claimTicket_cases db inp with
      ⟨event, -, -, -, -, -, -, heq⟩ | ⟨e, heq⟩
    · rw [heq] at h
      injection h with h1 h2
      injection h1 with h1
      rw [← h1]
      rfl
    · rw [heq] at h
      simp at h
  · intro db inp t ht
    rcases claimTicket_cases db inp with
      ⟨event, -, -, -, -, -, -, heq⟩ | ⟨e, heq⟩
    · rw [heq]
      exact List.mem_cons_of_mem _ ht
    · rw [heq]
      exact ht
  · intro db q c n t ht hter
    rcases scanTicket_cases db q c n with
      ⟨p, ticket, event, -, hft, -, -, hst, -, heq⟩ | ⟨e, heq⟩
    · rw [heq]
      have hne : t ≠ ticket := by
        intro hEq
        rw [hEq] at hter
        exact hter hst
      exact mem_updateFirst_of_ne (markUsed c n) hft ht hne
    · rw [heq]
      exact ht
  · intro db i c n t ht hter
    rcases useTicket_cases db i c n with
      ⟨ticket, event, hft, -, -, hst, heq⟩ | ⟨e, heq⟩
    · rw [heq]
      have hne : t ≠ ticket := by
        intro hEq
        rw [hEq] at hter
        exact hter hst
      exact mem_updateFirst_of_ne (markUsed c n) hft ht hne
    · rw [heq]
      exact ht
  · intro db tid t ht hter
    cases hfind : db.tickets.find? (fun t' => t'.ticketId == tid) with
    | none =>
      show t ∈ updateFirst (fun t' => t'.ticketId == tid) _ db.tickets
      rw [updateFirst_of_find?_eq_none hfind]
      exact ht
    | some x =>
      by_cases hEq : t = x
      · subst hEq
        exact mem_updateFirst_of_fix ht (by
          rw [if_neg (by simp [hter])])
      · exact mem_updateFirst_of_ne _ hfind ht hEq
  · intro db q c n t' h
    rcases scanTicket_cases db q c n with
      ⟨p, ticket, event, -, hft, -, -, hst, -, heq⟩ | ⟨e, heq⟩
    · rw [heq] at h
      simp only [Except.ok.injEq] at h
      exact ⟨ticket, hft, hst, h.symm⟩
    · rw [heq] at h
      simp at h
  · intro db i c n t' h
    rcases useTicket_cases db i c n with
      ⟨ticket, event, hft, -, -, hst, heq⟩ | ⟨e, heq⟩
    · rw [heq] at h
      simp only [Except.ok.injEq] at h
      exact ⟨ticket, hft, hst, h.symm⟩
    · rw [heq] at h
      simp at h

/-- C8 witness: the concrete `used` ticket survives a scan of its own
credential unchanged. -/
theorem C8_witness :
    fixTicketUsed ∈
      (scanTicket fixDbUsed (qrEncode fixPayloadU1) fixOrganizerA 50).2.tickets :=
  C8_lifecycle_terminal.2.2.1 fixDbUsed (qrEncode fixPayloadU1) fixOrganizerA
    50 fixTicketUsed (by decide) (by decide)

/-- C9: `POST /api/qr/validate` is read-only — it returns the store unchanged
on every input — and its checks are exactly those of `POST /api/qr/scan`: the
scan result equals the validate result with the `used` transition applied to
the success value. -/
theorem C9_validate_read_only :
    (∀ db qrData caller nowDate,
      (validateQr db qrData caller nowDate).2 = db) ∧
    (∀ db qrData caller nowDate,
      (scanTicket db qrData caller nowDate).1 =
        ((validateQr db qrData caller nowDate).1).map
          (markUsed caller nowDate)) := by
  constructor
  · intro db q c n
    exact (validateQr_eq_scanTicket db q c n).1
  · intro db q c n
    exact (validateQr_eq_scanTicket db q c n).2

/-- C10: a holder whose only tickets for an event are cancelled or expired is
not blocked by the duplicate-claim guard: with the event claimable and a free
capacity slot, the claim succeeds and inserts a fresh active ticket. -/
theorem C10_terminal_tickets_not_blocking :
    ∀ db inp event, findEvent db inp.eventId = some event →
      event.status = EventStatus.published → event.isApproved = true →
      ¬ event.date < inp.nowDate →
      (∀ t ∈ db.tickets, t.event = inp.eventId → t.user = inp.userId →
        t.status = TicketStatus.cancelled ∨
          t.status = TicketStatus.expired) →
      activeCount db inp.eventId < event.capacity →
      claimTicket db inp =
        (.ok (newTicket inp event),
         { db with tickets := newTicket inp event :: db.tickets }) := by
  intro db inp event hfe hs ha hd hterm hcap
  have hc : isOccupying TicketStatus.cancelled = false := by decide
  have hx : isOccupying TicketStatus.expired = false := by decide
  have hdup : hasOccupyingTicket db inp.eventId inp.userId = false := by
    unfold hasOccupyingTicket
    rw [List.any_eq_false]
    intro t ht
    intro hp
    rw [Bool.and_eq_true, Bool.and_eq_true] at hp
    obtain ⟨⟨he, hu⟩, hocc⟩ := hp
    rcases hterm t ht (by simpa using he) (by simpa using hu) with h | h
    · rw [h, hc] at hocc
      simp at hocc
    · rw [h, hx] at hocc
      simp at hocc
  exact claimTicket_eq_newTicket db inp hfe hs ha hd hdup hcap

/-- C10 witness: holder `u1`, whose only ticket for event `e1` is cancelled,
successfully claims a fresh ticket. -/
theorem C10_witness :
    claimTicket fixDbCancelled fixClaimU1 =
      (.ok (newTicket fixClaimU1 fixEvent1),
       { fixDbCancelled with
          tickets := newTicket fixClaimU1 fixEvent1 ::
            fixDbCancelled.tickets }) :=
  C10_terminal_tickets_not_blocking fixDbCancelled fixClaimU1 fixEvent1
    (by decide) (by decide) (by decide) (by decide) (by decide) (by decide)

end WebTicketing
